import Mathlib

/-!
Shallow embedding of `src/code/functions.py` (pandas pipeline turning
per-home motion events into a per-home feature table).

Timestamps are modelled as natural numbers (pandas timestamps are integer
nanosecond counts; only their ordering and arithmetic with the interval
width matter).  DataFrames are modelled as lists of typed rows; the
`groupby`/`apply`/`join`/`pivot` combinators of pandas are modelled by the
corresponding explicit list operations.  The statsmodels VAR estimator
invoked by `fit_VAR_model` is external to the repository and is abstracted
as a function parameter returning either a coefficient frame or an error
(a Python exception).
-/

namespace Minder

/-- One row of the raw motion DataFrame: columns `home_id`, `location`,
`datetime` (the `event_id` column is never consulted by the code and is
omitted). -/
structure Event where
  home_id : String
  location : String
  datetime : Nat
deriving DecidableEq

/-- Is `pat` the leading run of `s`? (helper for substring containment). -/
def leadsWith : List Char → List Char → Bool
  | [], _ => true
  | _ :: _, [] => false
  | a :: as, b :: bs => a == b && leadsWith as bs

/-- Does the character list `pat` occur contiguously inside `s`? -/
def hasSub (s pat : List Char) : Bool :=
  match s with
  | [] => pat.isEmpty
  | _ :: rest => leadsWith pat s || hasSub rest pat

/-- Model of `Series.str.contains(pat)` for a literal pattern `pat`:
substring containment. -/
def strContains (s pat : String) : Bool :=
  hasSub s.toList pat.toList

/-- Model of `str.contains('bedroom1|lounge|bathroom1|hallway|kitchen')`
(line 127): the regex alternation of five literal fragments, i.e. the
location contains at least one of them. -/
def selectedLoc (l : String) : Bool :=
  strContains l "bedroom1" || strContains l "lounge" || strContains l "bathroom1" ||
    strContains l "hallway" || strContains l "kitchen"

/-- Line 127: `data[data.location.str.contains('bedroom1|lounge|bathroom1|hallway|kitchen')]`. -/
def selectedEvents (data : List Event) : List Event :=
  data.filter fun e => selectedLoc e.location

/-- Number of entries of `pd.date_range(start=start, end=stop, freq=w)`:
edges `start, start+w, ...` up to and including the last one `≤ stop`;
empty when `start > stop`.  (`w = 0` never arises: pandas frequency
strings denote positive durations.) -/
def dateRangeLen (start stop w : Nat) : Nat :=
  if start ≤ stop then (stop - start) / w + 1 else 0

/-- The generated bin edges themselves (line 27). -/
def dateRange (start stop w : Nat) : List Nat :=
  (List.range (dateRangeLen start stop w)).map fun i => start + i * w

/-- Model of `count_events_per_interval` (lines 4-37): one row per edge except the
final sentinel edge; row `x` holds the edge `edges[x]` and the number of
events with `edges[x] < datetime <= edges[x+1]` (two chained DataFrame
filters, lines 32-33).  The slice on line 37 drops the final all-zero
sentinel row, which is exactly why the row index runs over
`edges.length - 1`. -/
def count_events_per_interval (data : List Event) (start stop interval : Nat) :
    List (Nat × Nat) :=
  (List.range ((dateRange start stop interval).length - 1)).map fun x =>
    ((dateRange start stop interval).getD x 0,
      ((data.filter fun e => (dateRange start stop interval).getD x 0 < e.datetime).filter
        fun e => e.datetime ≤ (dateRange start stop interval).getD (x + 1) 0).length)

-- basic facts about the edge list

theorem dateRange_length (start stop w : Nat) :
    (dateRange start stop w).length = dateRangeLen start stop w := by
  simp [dateRange]

theorem dateRange_getD (start stop w x : Nat)
    (hx : x < dateRangeLen start stop w) :
    (dateRange start stop w).getD x 0 = start + x * w := by
  unfold dateRange
  rw [List.getD_eq_getElem?_getD]
  rw [List.getElem?_map]
  rw [List.getElem?_range hx]
  rfl

theorem dateRangeLen_sub_one (start stop w : Nat) :
    dateRangeLen start stop w - 1 = (stop - start) / w := by
  unfold dateRangeLen
  split
  · exact Nat.add_sub_cancel _ _
  · have hz : stop - start = 0 := by omega
    rw [hz, Nat.zero_div]

/-- The predicate of bin `x` (lines 32-33): `edge[x] < datetime <= edge[x+1]`,
with the edges written out arithmetically. -/
def binPred (start w x : Nat) (e : Event) : Bool :=
  decide (start + x * w < e.datetime) && decide (e.datetime ≤ start + (x + 1) * w)

/-- Normal form of the count series: row `x` (for `x` below the number of
bins) is the bin start `start + x*w` together with the number of events in
`(start + x*w, start + (x+1)*w]`. -/
theorem count_events_per_interval_eq (data : List Event) (start stop w : Nat) :
    count_events_per_interval data start stop w =
      (List.range (dateRangeLen start stop w - 1)).map fun x =>
        (start + x * w, (data.filter (binPred start w x)).length) := by
  unfold count_events_per_interval
  rw [dateRange_length]
  apply List.map_congr_left
  intro x hx
  have hx' : x < dateRangeLen start stop w - 1 := List.mem_range.mp hx
  have hx1 : x < dateRangeLen start stop w := by omega
  have hx2 : x + 1 < dateRangeLen start stop w := by omega
  rw [dateRange_getD _ _ _ _ hx1, dateRange_getD _ _ _ _ hx2]
  rw [List.filter_filter]
  have hcomm : ∀ a ∈ data,
      (decide (a.datetime ≤ start + (x + 1) * w) && decide (start + x * w < a.datetime)) =
        binPred start w x a :=
    fun a _ => Bool.and_comm _ _
  rw [List.filter_congr hcomm]

theorem count_events_per_interval_length (data : List Event) (start stop w : Nat) :
    (count_events_per_interval data start stop w).length = (stop - start) / w := by
  rw [count_events_per_interval_eq, List.length_map, List.length_range,
    dateRangeLen_sub_one]

theorem count_events_per_interval_getElem? (data : List Event)
    (start stop w x : Nat) (hx : x < (stop - start) / w) :
    (count_events_per_interval data start stop w)[x]? =
      some (start + x * w, (data.filter (binPred start w x)).length) := by
  rw [count_events_per_interval_eq, List.getElem?_map,
    List.getElem?_range (by rw [dateRangeLen_sub_one]; exact hx)]
  rfl

/-- Counting events over two adjacent half-open intervals adds up to
counting over their union. -/
theorem filter_interval_append (data : List Event) (a b c : Nat)
    (hab : a ≤ b) (hbc : b ≤ c) :
    (data.filter fun e => decide (a < e.datetime) && decide (e.datetime ≤ b)).length +
      (data.filter fun e => decide (b < e.datetime) && decide (e.datetime ≤ c)).length =
      (data.filter fun e => decide (a < e.datetime) && decide (e.datetime ≤ c)).length := by
  induction data with
  | nil => simp
  | cons e tl ih =>
    by_cases h1 : a < e.datetime <;> by_cases h2 : e.datetime ≤ b <;>
      by_cases h3 : e.datetime ≤ c <;> by_cases h4 : b < e.datetime <;>
      simp [List.filter_cons, h1, h2, h3, h4] <;> omega

/-- Telescoping the per-bin counts over the first `k` bins. -/
theorem sum_bin_counts (data : List Event) (start w : Nat) (k : Nat) :
    (((List.range k).map fun x => (data.filter (binPred start w x)).length).sum) =
      (data.filter fun e =>
        decide (start < e.datetime) && decide (e.datetime ≤ start + k * w)).length := by
  induction k with
  | zero =>
    have hfalse : ∀ a ∈ data,
        (decide (start < a.datetime) && decide (a.datetime ≤ start + 0 * w)) =
          (fun _ : Event => false) a := by
      intro a _
      by_cases hlt : start < a.datetime <;> by_cases hle : a.datetime ≤ start + 0 * w <;>
        simp [hlt, hle] <;> omega
    rw [List.filter_congr hfalse, List.filter_false]
    simp
  | succ k ih =>
    rw [List.range_succ, List.map_append, List.sum_append]
    simp only [List.map_cons, List.map_nil, List.sum_cons, List.sum_nil, Nat.add_zero]
    rw [ih]
    have hstep := filter_interval_append data start (start + k * w) (start + (k * w + w))
      (Nat.le_add_right _ _) (by omega)
    unfold binPred
    simp only [add_one_mul, Nat.add_assoc]
    omega

/-- C2, counterexample: with `start = 0`, `end = 5`, `interval_width = 2`
the series has 2 rows, while `ceil((end-start)/interval_width) = 3`: the
code keeps `floor`, not `ceil`, of the span over the width. -/
theorem count_series_length_not_ceil :
    (count_events_per_interval [] 0 5 2).length = 2 ∧
      (count_events_per_interval [] 0 5 2).length ≠ (5 - 0 + 2 - 1) / 2 := by
  decide

/-- C2 (amended): for `start < end` and positive `interval_width`, the
series has exactly `floor((end-start)/interval_width)` rows (not `ceil`),
one row per bin; a bin containing no events still has its row, with
`event_count = 0`. -/
theorem count_series_length_floor (data : List Event) (start stop w : Nat)
    (h : start < stop) (hw : 0 < w) :
    (count_events_per_interval data start stop w).length = (stop - start) / w ∧
      (∀ x, x < (stop - start) / w →
        (count_events_per_interval data start stop w)[x]? =
          some (start + x * w, (data.filter (binPred start w x)).length)) ∧
      (∀ x, x < (stop - start) / w →
        (∀ e ∈ data, ¬(start + x * w < e.datetime ∧ e.datetime ≤ start + (x + 1) * w)) →
        (count_events_per_interval data start stop w)[x]? =
          some (start + x * w, 0)) := by
  refine ⟨count_events_per_interval_length data start stop w, ?_, ?_⟩
  · intro x hx
    exact count_events_per_interval_getElem? data start stop w x hx
  · intro x hx hempty
    rw [count_events_per_interval_getElem? data start stop w x hx]
    have hnil : data.filter (binPred start w x) = [] := by
      rw [List.filter_eq_nil_iff]
      intro e he
      have := hempty e he
      unfold binPred
      simp only [Bool.and_eq_true, decide_eq_true_eq]
      omega
    rw [hnil]
    rfl

theorem count_series_length_floor_witness :
    (0 : Nat) < 5 ∧ (0 : Nat) < 2 ∧
      ((count_events_per_interval [⟨"A", "kitchen", 5⟩] 0 5 2).length = (5 - 0) / 2 ∧
        (∀ x, x < (5 - 0) / 2 →
          (count_events_per_interval [⟨"A", "kitchen", 5⟩] 0 5 2)[x]? =
            some (0 + x * 2,
              (List.filter (binPred 0 2 x) [⟨"A", "kitchen", 5⟩]).length)) ∧
        (∀ x, x < (5 - 0) / 2 →
          (∀ e ∈ [(⟨"A", "kitchen", 5⟩ : Event)],
            ¬(0 + x * 2 < e.datetime ∧ e.datetime ≤ 0 + (x + 1) * 2)) →
          (count_events_per_interval [⟨"A", "kitchen", 5⟩] 0 5 2)[x]? =
            some (0 + x * 2, 0))) :=
  ⟨by decide, by decide,
    count_series_length_floor [⟨"A", "kitchen", 5⟩] 0 5 2 (by decide) (by decide)⟩

/-- C3, counterexample: with `start = 0`, `end = 5`, `interval_width = 2`
and a single event at time 5, the event satisfies `start < t <= end` but
the bins only reach the last generated edge 4, so the series sums to 0
while the claim demands 1. -/
theorem count_series_sum_misses_tail_events :
    (((count_events_per_interval [⟨"A", "kitchen", 5⟩] 0 5 2).map fun r => r.2).sum = 0) ∧
      (List.filter (fun e => decide (0 < e.datetime) && decide (e.datetime ≤ 5))
        [(⟨"A", "kitchen", 5⟩ : Event)]).length = 1 := by
  decide

/-- C3 (amended): the series total equals the number of events with
`start < datetime <= start + floor((end-start)/interval_width) * interval_width`
(the last generated bin edge), not `... <= end`; the two bounds agree only
when the interval width divides the span. -/
theorem count_series_sum_eq_events_upto_last_edge (data : List Event)
    (start stop w : Nat) :
    ((count_events_per_interval data start stop w).map fun r => r.2).sum =
      (data.filter fun e =>
        decide (start < e.datetime) &&
          decide (e.datetime ≤ start + ((stop - start) / w) * w)).length := by
  rw [count_events_per_interval_eq, List.map_map]
  have hmap : ((fun r : Nat × Nat => r.2) ∘ fun x =>
      (start + x * w, (data.filter (binPred start w x)).length)) =
      fun x => (data.filter (binPred start w x)).length := rfl
  rw [hmap, sum_bin_counts, dateRangeLen_sub_one]

/-- C8: an event timestamped exactly at the shared edge `edge[i+1]` of two
adjacent existing bins is counted by the earlier bin `(edge[i], edge[i+1]]`
and not by the later bin `(edge[i+1], edge[i+2]]`; both rows hold the count
of exactly the events in their half-open interval. -/
theorem boundary_event_counts_to_earlier_bin (data : List Event)
    (start stop w : Nat) (hw : 0 < w) (i : Nat) (e : Event)
    (hi : i + 1 < (count_events_per_interval data start stop w).length)
    (he : e ∈ data) (hd : e.datetime = start + (i + 1) * w) :
    e ∈ data.filter (binPred start w i) ∧
      e ∉ data.filter (binPred start w (i + 1)) ∧
      (count_events_per_interval data start stop w)[i]? =
        some (start + i * w, (data.filter (binPred start w i)).length) ∧
      (count_events_per_interval data start stop w)[i + 1]? =
        some (start + (i + 1) * w, (data.filter (binPred start w (i + 1))).length) := by
  have hlen : i + 1 < (stop - start) / w := by
    rwa [count_events_per_interval_length] at hi
  refine ⟨?_, ?_, ?_, ?_⟩
  · rw [List.mem_filter]
    refine ⟨he, ?_⟩
    unfold binPred
    simp only [Bool.and_eq_true, decide_eq_true_eq]
    constructor
    · rw [hd]
      have : i * w + w ≤ (i + 1) * w := by
        rw [add_one_mul]
      omega
    · omega
  · rw [List.mem_filter]
    intro hmem
    have := hmem.2
    unfold binPred at this
    simp only [Bool.and_eq_true, decide_eq_true_eq] at this
    omega
  · exact count_events_per_interval_getElem? data start stop w i (by omega)
  · exact count_events_per_interval_getElem? data start stop w (i + 1) hlen

theorem boundary_event_counts_to_earlier_bin_witness :
    (0 : Nat) < 1 ∧
      1 + 1 < (count_events_per_interval [⟨"A", "kitchen", 2⟩] 0 4 1).length ∧
      ((⟨"A", "kitchen", 2⟩ : Event) ∈
          List.filter (binPred 0 1 1) [(⟨"A", "kitchen", 2⟩ : Event)] ∧
        (⟨"A", "kitchen", 2⟩ : Event) ∉
          List.filter (binPred 0 1 2) [(⟨"A", "kitchen", 2⟩ : Event)] ∧
        (count_events_per_interval [⟨"A", "kitchen", 2⟩] 0 4 1)[1]? =
          some (0 + 1 * 1,
            (List.filter (binPred 0 1 1) [(⟨"A", "kitchen", 2⟩ : Event)]).length) ∧
        (count_events_per_interval [⟨"A", "kitchen", 2⟩] 0 4 1)[1 + 1]? =
          some (0 + (1 + 1) * 1,
            (List.filter (binPred 0 1 2) [(⟨"A", "kitchen", 2⟩ : Event)]).length)) :=
  ⟨by decide, by decide,
    boundary_event_counts_to_earlier_bin [⟨"A", "kitchen", 2⟩] 0 4 1 (by decide) 1
      ⟨"A", "kitchen", 2⟩ (by decide) (by decide) (by decide)⟩

/-- Distinct home ids of a frame: `df[["home_id"]].groupby(["home_id"]).head(1)`
keeps one representative row per home; only the resulting key set matters
downstream (it is fed into `set_index` and joins), so it is modelled as
deduplication of the `home_id` column. -/
def homeIds (data : List Event) : List String :=
  (data.map fun e => e.home_id).dedup

/-- Model of `data[data.location.str.contains(pat)]` for a literal pattern. -/
def matchingEvents (data : List Event) (pat : String) : List Event :=
  data.filter fun e => strContains e.location pat

/-- Lines 93-116, for one predicate `pat`: if any event matches, one row
per home with a matching event, flagged `True`; otherwise one row per home
of the whole input, flagged `False`. -/
def flagFrame (data : List Event) (pat : String) : List (String × Bool) :=
  if 0 < (matchingEvents data pat).length then
    (homeIds (matchingEvents data pat)).map fun h => (h, true)
  else
    (homeIds data).map fun h => (h, false)

/-- Reading home `h`'s flag out of a joined flag column, with the
`fillna(False)` of line 124 supplying `False` for homes missing from that
column. -/
def lookupFlag (frame : List (String × Bool)) (h : String) : Bool :=
  (frame.lookup h).getD false

/-- The index of the chained outer joins of lines 118-122: the union of
the three flag frames' home sets. -/
def flagKeys (data : List Event) : List String :=
  ((flagFrame data "conservatory").map Prod.fst ++
    (flagFrame data "dining room").map Prod.fst ++
    (flagFrame data "study").map Prod.fst).dedup

/-- One row of `homes_with_binary_locations`. -/
structure FlagRow where
  home_id : String
  has_conservatory : Bool
  has_dining_room : Bool
  has_study : Bool
deriving DecidableEq

/-- Model of `homes_with_binary_locations` after the outer joins and the
`fillna(False)` (lines 118-124). -/
def homes_with_binary_locations (data : List Event) : List FlagRow :=
  (flagKeys data).map fun h =>
    ⟨h, lookupFlag (flagFrame data "conservatory") h,
      lookupFlag (flagFrame data "dining room") h,
      lookupFlag (flagFrame data "study") h⟩

/-- Home `h` has at least one event whose location contains `pat` — the
semantics the spec assigns to a presence flag. -/
def hasMatch (data : List Event) (pat : String) (h : String) : Bool :=
  data.any fun e => e.home_id == h && strContains e.location pat

theorem mem_homeIds (data : List Event) (h : String) :
    h ∈ homeIds data ↔ ∃ e ∈ data, e.home_id = h := by
  simp [homeIds, List.mem_dedup, List.mem_map]

theorem hasMatch_iff (data : List Event) (pat h : String) :
    hasMatch data pat h = true ↔
      ∃ e ∈ data, e.home_id = h ∧ strContains e.location pat = true := by
  simp [hasMatch, List.any_eq_true, Bool.and_eq_true, beq_iff_eq]

theorem mem_homeIds_matching (data : List Event) (pat h : String) :
    h ∈ homeIds (matchingEvents data pat) ↔ hasMatch data pat h = true := by
  rw [mem_homeIds, hasMatch_iff]
  unfold matchingEvents
  constructor
  · rintro ⟨e, he, rfl⟩
    rw [List.mem_filter] at he
    exact ⟨e, he.1, rfl, he.2⟩
  · rintro ⟨e, he, rfl, hc⟩
    exact ⟨e, List.mem_filter.mpr ⟨he, hc⟩, rfl⟩

theorem map_fst_pairs (l : List String) (b : Bool) :
    ((l.map fun x => (x, b)).map Prod.fst) = l := by
  induction l with
  | nil => rfl
  | cons a t ih => simp [ih]

theorem lookup_map_const (l : List String) (h : String) (b : Bool) :
    (l.map fun x => (x, b)).lookup h = if h ∈ l then some b else none := by
  induction l with
  | nil => simp
  | cons a t ih =>
    by_cases hb : h = a
    · simp [List.lookup, hb]
    · have hfb : (h == a) = false := by
        rw [beq_eq_false_iff_ne]
        exact hb
      simp [List.lookup, hfb, ih, List.mem_cons, hb]

theorem hasMatch_false_of_nil (data : List Event) (pat h : String)
    (hnil : matchingEvents data pat = []) : hasMatch data pat h = false := by
  rw [Bool.eq_false_iff]
  intro htrue
  rw [hasMatch_iff] at htrue
  obtain ⟨e, he, _, hc⟩ := htrue
  have : e ∈ matchingEvents data pat := List.mem_filter.mpr ⟨he, hc⟩
  rw [hnil] at this
  exact absurd this (List.not_mem_nil e)

theorem lookupFlag_flagFrame (data : List Event) (pat h : String) :
    lookupFlag (flagFrame data pat) h = hasMatch data pat h := by
  unfold lookupFlag flagFrame
  by_cases hm : 0 < (matchingEvents data pat).length
  · rw [if_pos hm, lookup_map_const]
    by_cases hh : h ∈ homeIds (matchingEvents data pat)
    · rw [if_pos hh]
      exact ((mem_homeIds_matching data pat h).mp hh).symm
    · rw [if_neg hh]
      have hfalse : hasMatch data pat h = false := by
        rw [Bool.eq_false_iff]
        exact fun htrue => hh ((mem_homeIds_matching data pat h).mpr htrue)
      rw [hfalse]
      rfl
  · rw [if_neg hm, lookup_map_const]
    have hnil : matchingEvents data pat = [] := by
      cases hcase : matchingEvents data pat with
      | nil => rfl
      | cons a t => rw [hcase] at hm; simp at hm
    rw [hasMatch_false_of_nil data pat h hnil]
    by_cases hh : h ∈ homeIds data <;> simp [hh]

theorem mem_flagFrame_keys (data : List Event) (pat h : String) :
    h ∈ (flagFrame data pat).map Prod.fst ↔
      (hasMatch data pat h = true ∨
        (matchingEvents data pat = [] ∧ h ∈ homeIds data)) := by
  unfold flagFrame
  by_cases hm : 0 < (matchingEvents data pat).length
  · have hne : matchingEvents data pat ≠ [] := by
      intro hnil
      rw [hnil] at hm
      simp at hm
    rw [if_pos hm, map_fst_pairs, mem_homeIds_matching]
    simp [hne]
  · have hnil : matchingEvents data pat = [] := by
      cases hcase : matchingEvents data pat with
      | nil => rfl
      | cons a t => rw [hcase] at hm; simp at hm
    rw [if_neg hm, map_fst_pairs]
    rw [hasMatch_false_of_nil data pat h hnil]
    simp [hnil]

theorem mem_flagKeys (data : List Event) (h : String) :
    h ∈ flagKeys data ↔
      (h ∈ (flagFrame data "conservatory").map Prod.fst ∨
        h ∈ (flagFrame data "dining room").map Prod.fst ∨
        h ∈ (flagFrame data "study").map Prod.fst) := by
  simp [flagKeys, List.mem_dedup, List.mem_append]

/-- Every row of `homes_with_binary_locations` is the row of its own home
id, whose three flags are exactly the `hasMatch` predicates. -/
theorem mem_binary_rows (data : List Event) (r : FlagRow) :
    r ∈ homes_with_binary_locations data ↔
      (r.home_id ∈ flagKeys data ∧
        r = ⟨r.home_id, hasMatch data "conservatory" r.home_id,
          hasMatch data "dining room" r.home_id,
          hasMatch data "study" r.home_id⟩) := by
  unfold homes_with_binary_locations
  rw [List.mem_map]
  constructor
  · rintro ⟨k, hk, rfl⟩
    simp only [lookupFlag_flagFrame]
    exact ⟨hk, trivial⟩
  · rintro ⟨hk, hr⟩
    refine ⟨r.home_id, hk, ?_⟩
    simp only [lookupFlag_flagFrame]
    exact hr.symm

/-- C6, counterexample: with homes A (kitchen only), B (conservatory),
C (dining room) and D (study), every predicate has a matching event, so
each flag frame lists only its matching homes and their outer join never
mentions A: home A appears in the input but not in the flag mapping. -/
theorem binary_flags_missing_home :
    "A" ∈ homeIds
        [⟨"A", "kitchen", 1⟩, ⟨"B", "conservatory", 1⟩,
          ⟨"C", "dining room", 1⟩, ⟨"D", "study", 1⟩] ∧
      "A" ∉ (homes_with_binary_locations
        [⟨"A", "kitchen", 1⟩, ⟨"B", "conservatory", 1⟩,
          ⟨"C", "dining room", 1⟩, ⟨"D", "study", 1⟩]).map FlagRow.home_id := by
  decide

/-- C6 (amended): a home appears in the flag mapping iff it has an event
matching one of the three predicates, or some predicate matches no event
at all (in which case every input home is listed for that predicate's
fallback frame); for every home that does appear, each flag is true iff
the home has at least one event whose location contains that predicate's
substring.  Homes matching no predicate are absent whenever all three
predicates match somewhere, so not every input home need appear. -/
theorem binary_flags_characterisation (data : List Event) (h : String) :
    (h ∈ (homes_with_binary_locations data).map FlagRow.home_id ↔
      (hasMatch data "conservatory" h = true ∨
        hasMatch data "dining room" h = true ∨
        hasMatch data "study" h = true ∨
        (h ∈ homeIds data ∧
          (matchingEvents data "conservatory" = [] ∨
            matchingEvents data "dining room" = [] ∨
            matchingEvents data "study" = [])))) ∧
    (∀ r ∈ homes_with_binary_locations data, r.home_id = h →
      r.has_conservatory = hasMatch data "conservatory" h ∧
        r.has_dining_room = hasMatch data "dining room" h ∧
        r.has_study = hasMatch data "study" h) := by
  constructor
  · have hkeys : (homes_with_binary_locations data).map FlagRow.home_id =
        flagKeys data := by
      unfold homes_with_binary_locations
      rw [List.map_map]
      exact List.map_id _
    rw [hkeys, mem_flagKeys, mem_flagFrame_keys, mem_flagFrame_keys,
      mem_flagFrame_keys]
    tauto
  · intro r hr hid
    obtain ⟨-, hform⟩ := (mem_binary_rows data r).mp hr
    rw [hform]
    rw [hid]
    exact ⟨rfl, rfl, rfl⟩

theorem binary_flags_characterisation_witness :
    ("B" ∈ (homes_with_binary_locations
        [(⟨"B", "conservatory", 1⟩ : Event)]).map FlagRow.home_id ↔
      (hasMatch [(⟨"B", "conservatory", 1⟩ : Event)] "conservatory" "B" = true ∨
        hasMatch [(⟨"B", "conservatory", 1⟩ : Event)] "dining room" "B" = true ∨
        hasMatch [(⟨"B", "conservatory", 1⟩ : Event)] "study" "B" = true ∨
        ("B" ∈ homeIds [(⟨"B", "conservatory", 1⟩ : Event)] ∧
          (matchingEvents [(⟨"B", "conservatory", 1⟩ : Event)] "conservatory" = [] ∨
            matchingEvents [(⟨"B", "conservatory", 1⟩ : Event)] "dining room" = [] ∨
            matchingEvents [(⟨"B", "conservatory", 1⟩ : Event)] "study" = [])))) ∧
    (∀ r ∈ homes_with_binary_locations [(⟨"B", "conservatory", 1⟩ : Event)],
      r.home_id = "B" →
      r.has_conservatory =
          hasMatch [(⟨"B", "conservatory", 1⟩ : Event)] "conservatory" "B" ∧
        r.has_dining_room =
          hasMatch [(⟨"B", "conservatory", 1⟩ : Event)] "dining room" "B" ∧
        r.has_study = hasMatch [(⟨"B", "conservatory", 1⟩ : Event)] "study" "B") :=
  binary_flags_characterisation [(⟨"B", "conservatory", 1⟩ : Event)] "B"

/-- C10: for the fixed predicate set, presence flags are monotone under
adding events: any true flag of a home's row stays true (and the home
keeps a row) in every event collection extending the input. -/
theorem presence_flags_monotone (data data' : List Event)
    (hsub : ∀ e, e ∈ data → e ∈ data') (r : FlagRow)
    (hr : r ∈ homes_with_binary_locations data) :
    (r.has_conservatory = true → ∃ r' ∈ homes_with_binary_locations data',
        r'.home_id = r.home_id ∧ r'.has_conservatory = true) ∧
      (r.has_dining_room = true → ∃ r' ∈ homes_with_binary_locations data',
        r'.home_id = r.home_id ∧ r'.has_dining_room = true) ∧
      (r.has_study = true → ∃ r' ∈ homes_with_binary_locations data',
        r'.home_id = r.home_id ∧ r'.has_study = true) := by
  obtain ⟨-, hform⟩ := (mem_binary_rows data r).mp hr
  have hmono : ∀ pat, hasMatch data pat r.home_id = true →
      hasMatch data' pat r.home_id = true := by
    intro pat hm
    rw [hasMatch_iff] at hm ⊢
    obtain ⟨e, he, hid, hc⟩ := hm
    exact ⟨e, hsub e he, hid, hc⟩
  have hrow : ∀ pat, hasMatch data' pat r.home_id = true →
      pat = "conservatory" ∨ pat = "dining room" ∨ pat = "study" →
      (⟨r.home_id, hasMatch data' "conservatory" r.home_id,
        hasMatch data' "dining room" r.home_id,
        hasMatch data' "study" r.home_id⟩ : FlagRow) ∈
        homes_with_binary_locations data' := by
    intro pat hm hpat
    rw [mem_binary_rows]
    refine ⟨?_, rfl⟩
    rw [mem_flagKeys]
    rcases hpat with rfl | rfl | rfl
    · exact Or.inl ((mem_flagFrame_keys data' _ _).mpr (Or.inl hm))
    · exact Or.inr (Or.inl ((mem_flagFrame_keys data' _ _).mpr (Or.inl hm)))
    · exact Or.inr (Or.inr ((mem_flagFrame_keys data' _ _).mpr (Or.inl hm)))
  refine ⟨?_, ?_, ?_⟩
  · intro htrue
    have hm : hasMatch data "conservatory" r.home_id = true := by
      rw [hform] at htrue
      exact htrue
    have hm' := hmono _ hm
    exact ⟨_, hrow _ hm' (Or.inl rfl), rfl, hm'⟩
  · intro htrue
    have hm : hasMatch data "dining room" r.home_id = true := by
      rw [hform] at htrue
      exact htrue
    have hm' := hmono _ hm
    exact ⟨_, hrow _ hm' (Or.inr (Or.inl rfl)), rfl, hm'⟩
  · intro htrue
    have hm : hasMatch data "study" r.home_id = true := by
      rw [hform] at htrue
      exact htrue
    have hm' := hmono _ hm
    exact ⟨_, hrow _ hm' (Or.inr (Or.inr rfl)), rfl, hm'⟩

theorem presence_flags_monotone_witness :
    (∀ e, e ∈ [(⟨"B", "conservatory", 1⟩ : Event)] →
      e ∈ [(⟨"B", "conservatory", 1⟩ : Event), ⟨"B", "kitchen", 2⟩]) ∧
      ((⟨"B", true, false, false⟩ : FlagRow) ∈
        homes_with_binary_locations [(⟨"B", "conservatory", 1⟩ : Event)]) ∧
      (((⟨"B", true, false, false⟩ : FlagRow).has_conservatory = true →
        ∃ r' ∈ homes_with_binary_locations
            [(⟨"B", "conservatory", 1⟩ : Event), ⟨"B", "kitchen", 2⟩],
          r'.home_id = (⟨"B", true, false, false⟩ : FlagRow).home_id ∧
            r'.has_conservatory = true) ∧
        ((⟨"B", true, false, false⟩ : FlagRow).has_dining_room = true →
          ∃ r' ∈ homes_with_binary_locations
              [(⟨"B", "conservatory", 1⟩ : Event), ⟨"B", "kitchen", 2⟩],
            r'.home_id = (⟨"B", true, false, false⟩ : FlagRow).home_id ∧
              r'.has_dining_room = true) ∧
        ((⟨"B", true, false, false⟩ : FlagRow).has_study = true →
          ∃ r' ∈ homes_with_binary_locations
              [(⟨"B", "conservatory", 1⟩ : Event), ⟨"B", "kitchen", 2⟩],
            r'.home_id = (⟨"B", true, false, false⟩ : FlagRow).home_id ∧
              r'.has_study = true)) :=
  ⟨by decide, by decide,
    presence_flags_monotone [(⟨"B", "conservatory", 1⟩ : Event)]
      [(⟨"B", "conservatory", 1⟩ : Event), ⟨"B", "kitchen", 2⟩]
      (by decide) ⟨"B", true, false, false⟩ (by decide)⟩

/-- One row of `counted_events_per_house` after the index tidy-up of line
133: columns `home_id`, `location`, `datetime` (bin start), `event_count`. -/
structure CountRow where
  home_id : String
  location : String
  datetime : Nat
  event_count : Nat
deriving DecidableEq

/-- The group keys of `groupby(["home_id","location"])` over the filtered
events (line 129): the distinct (home, location) pairs.  pandas sorts the
group keys; only the key set matters downstream, so the order is simply
the deduplication order. -/
def groupPairs (data : List Event) : List (String × String) :=
  (data.map fun e => (e.home_id, e.location)).dedup

/-- Model of `counted_events_per_house` (lines 129-133): for each (home, location)
group, the count series of that group's events, tagged with the group key
(which `reset_index` turns back into columns). -/
def counted_events_per_house (data : List Event) (start stop w : Nat) :
    List CountRow :=
  (groupPairs data).flatMap fun p =>
    (count_events_per_interval
        (data.filter fun e => e.home_id == p.1 && e.location == p.2)
        start stop w).map fun r => ⟨p.1, p.2, r.1, r.2⟩

/-- The distinct home ids of `counted_events_per_house`: the group keys of
the per-home fit on line 135. -/
def modelHomes (data : List Event) (start stop w : Nat) : List String :=
  ((counted_events_per_house data start stop w).map fun r => r.home_id).dedup

/-- The rows of one home's group inside `counted_events_per_house`. -/
def homeRows (data : List Event) (start stop w : Nat) (h : String) :
    List CountRow :=
  (counted_events_per_house data start stop w).filter fun r => r.home_id == h

/-- The `params` DataFrame returned by the statsmodels VAR estimator for
one home: rows indexed by coefficient name, columns indexed by target
location, rational-valued entries. -/
structure ParamsFrame where
  coeffs : List String
  locs : List String
  val : String → String → Rat

/-- Sequencing of per-group applications of a fallible function, as
`groupby(...).apply(f)` behaves in Python: the first raised exception
aborts the whole computation. -/
def mapExcept {α β : Type} (f : α → Except String β) :
    List α → Except String (List β)
  | [] => .ok []
  | a :: l =>
    match f a with
    | .error msg => .error msg
    | .ok b => (mapExcept f l).map fun bs => b :: bs

/-- Model of `modelled_event_counts` before the pivot (lines 135-140):
`fit_VAR_model` applied per home.  `fit_VAR_model` itself only pivots the
home's count rows and delegates the estimation to the external statsmodels
routine, so the whole per-home fit is abstracted as the parameter
`fitModel` (receiving the home's rows, `lag` and `freq`, and possibly
raising, modelled as `Except.error`). -/
def modelled_event_counts (data : List Event) (start stop w lag : Nat)
    (freq : String)
    (fitModel : List CountRow → Nat → String → Except String ParamsFrame) :
    Except String (List (String × ParamsFrame)) :=
  mapExcept
    (fun h => (fitModel (homeRows data start stop w h) lag freq).map fun p => (h, p))
    (modelHomes data start stop w)

/-- Union of the target-location columns across the stacked per-home
params frames (the concat inside `groupby.apply` unions column sets,
filling absent cells with NaN). -/
def allLocs (res : List (String × ParamsFrame)) : List String :=
  (res.flatMap fun hp => hp.2.locs).dedup

/-- Union of the coefficient names across homes: the pivot of line 143
creates one inner column level entry per distinct `coefficient` value. -/
def allCoeffs (res : List (String × ParamsFrame)) : List String :=
  (res.flatMap fun hp => hp.2.coeffs).dedup

/-- The flattened column name of line 144:
`' '.join((target_location, coefficient_name))` (the trailing `.strip()`
is the identity on the nonempty names produced here). -/
def colName (l c : String) : String := l ++ " " ++ c

/-- The column set of one home's own pivoted CoefficientMatrix: the
product of its own locations and its own coefficient names. -/
def individualCols (p : ParamsFrame) : List (String × String) :=
  p.locs.flatMap fun l => p.coeffs.map fun c => (l, c)

/-- The final feature table: the pivot index (one entry per home), the
structured coefficient columns `(target_location, coefficient)` — their
flattened string names are obtained with `colName` — the coefficient
cells, and the three flag columns resulting from the join. -/
structure FeatureTable where
  homes : List String
  coeffCols : List (String × String)
  cell : String → String × String → Rat
  has_conservatory : String → Bool
  has_dining_room : String → Bool
  has_study : String → Bool

/-- Lines 143-150: the pivot of the stacked params produces, for every
home row, the full product of the location columns and the distinct
coefficient names; `fillna(0)` (line 147) zero-fills every cell a home
lacks (both NaN sources: the column union of the concat and the pivot);
the final `join` (line 150) is a left join on the pivot index, and its
`fillna(False)` supplies `False` flags for homes without a flag row. -/
def buildTable (data : List Event) (res : List (String × ParamsFrame)) :
    FeatureTable where
  homes := res.map fun hp => hp.1
  coeffCols := (allLocs res).flatMap fun l => (allCoeffs res).map fun c => (l, c)
  cell := fun h lc =>
    match res.lookup h with
    | some p => if lc.1 ∈ p.locs ∧ lc.2 ∈ p.coeffs then p.val lc.2 lc.1 else 0
    | none => 0
  has_conservatory := fun h =>
    match (homes_with_binary_locations data).find? (fun r => r.home_id == h) with
    | some r => r.has_conservatory
    | none => false
  has_dining_room := fun h =>
    match (homes_with_binary_locations data).find? (fun r => r.home_id == h) with
    | some r => r.has_dining_room
    | none => false
  has_study := fun h =>
    match (homes_with_binary_locations data).find? (fun r => r.home_id == h) with
    | some r => r.has_study
    | none => false

/-- Model of `preprocess_events_data` (lines 65-152): flag frames from the raw
events, count series and per-home fits from the location-filtered events,
then pivot and join. -/
def preprocess_events_data (data : List Event) (start stop interval lag : Nat)
    (freq : String)
    (fitModel : List CountRow → Nat → String → Except String ParamsFrame) :
    Except String FeatureTable :=
  (modelled_event_counts (selectedEvents data) start stop interval lag freq
    fitModel).map (buildTable data)

/-- Projection used to state concrete facts about a run: its row index. -/
def tableHomes (r : Except String FeatureTable) : Option (List String) :=
  r.toOption.map fun t => t.homes

/-- Projection used to state concrete facts about a run: its coefficient
column set. -/
def tableCols (r : Except String FeatureTable) : Option (List (String × String)) :=
  r.toOption.map fun t => t.coeffCols

/-- Projection: the error message of a failed run, if any. -/
def errOf (r : Except String FeatureTable) : Option String :=
  match r with
  | .error m => some m
  | .ok _ => none

/-- The individual column set of a fit result (empty for a failed fit). -/
def fittedCols (r : Except String ParamsFrame) : List (String × String) :=
  match r with
  | .ok p => individualCols p
  | .error _ => []

/-- A stand-in external estimator following the statsmodels naming scheme
for lag 1: coefficient names `const` and `L1.<location>` for each location
present in the home's rows, all values 1.  It never raises. -/
def fitVarLike (rows : List CountRow) (lag : Nat) (freq : String) :
    Except String ParamsFrame :=
  .ok ⟨"const" :: ((rows.map fun r => r.location).dedup.map fun l => "L1." ++ l),
    (rows.map fun r => r.location).dedup, fun _ _ => 1⟩

/-- A stand-in external estimator that raises on any home whose rows
include the `bathroom1` location and succeeds otherwise — e.g. because
that home's series is degenerate there. -/
def fitFailBathroom (rows : List CountRow) (lag : Nat) (freq : String) :
    Except String ParamsFrame :=
  if rows.any fun r => r.location == "bathroom1" then .error "singular fit"
  else fitVarLike rows lag freq

theorem mapExcept_error {α β : Type} (f : α → Except String β) (l : List α)
    (a : α) (ha : a ∈ l) (msg : String) (hfa : f a = .error msg) :
    ∃ m, mapExcept f l = .error m := by
  induction l with
  | nil => exact absurd ha (List.not_mem_nil a)
  | cons b t ih =>
    cases hfb : f b with
    | error m => exact ⟨m, by simp [mapExcept, hfb]⟩
    | ok v =>
      rcases List.mem_cons.mp ha with rfl | hat
      · rw [hfa] at hfb
        exact absurd hfb (by simp)
      · obtain ⟨m, hm⟩ := ih hat
        exact ⟨m, by simp [mapExcept, hfb, hm, Except.map]⟩

theorem modelled_ok (data : List Event) (start stop w lag : Nat) (freq : String)
    (fitModel : List CountRow → Nat → String → Except String ParamsFrame)
    (hfit : ∀ rows, ∃ p, fitModel rows lag freq = .ok p) :
    ∃ res, modelled_event_counts data start stop w lag freq fitModel = .ok res ∧
      res.map (fun hp => hp.1) = modelHomes data start stop w := by
  unfold modelled_event_counts
  have key : ∀ hs : List String,
      ∃ res, mapExcept
          (fun h => (fitModel (homeRows data start stop w h) lag freq).map
            fun p => (h, p)) hs = .ok res ∧
        res.map (fun hp => hp.1) = hs := by
    intro hs
    induction hs with
    | nil => exact ⟨[], rfl, rfl⟩
    | cons h t ih =>
      obtain ⟨res, hres, hfst⟩ := ih
      obtain ⟨p, hp⟩ := hfit (homeRows data start stop w h)
      refine ⟨(h, p) :: res, ?_, ?_⟩
      · simp only [Except.map] at hres
        simp only [mapExcept, Except.map, hp]
        rw [hres]
      · simp [hfst]
  exact key (modelHomes data start stop w)

theorem mem_modelHomes (data : List Event) (start stop w : Nat) (h : String) :
    h ∈ modelHomes data start stop w ↔
      ∃ r ∈ counted_events_per_house data start stop w, r.home_id = h := by
  simp [modelHomes, List.mem_dedup, List.mem_map]

theorem counted_home_of_mem (data : List Event) (start stop w : Nat)
    (r : CountRow) (hr : r ∈ counted_events_per_house data start stop w) :
    ∃ e ∈ data, e.home_id = r.home_id := by
  unfold counted_events_per_house at hr
  rw [List.mem_flatMap] at hr
  obtain ⟨p, hp, hrmem⟩ := hr
  rw [List.mem_map] at hrmem
  obtain ⟨x, -, hx⟩ := hrmem
  unfold groupPairs at hp
  rw [List.mem_dedup, List.mem_map] at hp
  obtain ⟨e, he, hep⟩ := hp
  refine ⟨e, he, ?_⟩
  rw [← hx]
  rw [← hep]

theorem counted_home_exists (data : List Event) (start stop w : Nat)
    (e : Event) (he : e ∈ data) (hspan : 1 ≤ (stop - start) / w) :
    ∃ r ∈ counted_events_per_house data start stop w, r.home_id = e.home_id := by
  have hp : (e.home_id, e.location) ∈ groupPairs data := by
    unfold groupPairs
    rw [List.mem_dedup, List.mem_map]
    exact ⟨e, he, rfl⟩
  have hlen : 0 < (count_events_per_interval
      (data.filter fun e' => e'.home_id == e.home_id && e'.location == e.location)
      start stop w).length := by
    rw [count_events_per_interval_length]
    omega
  obtain ⟨x, hx⟩ := List.exists_mem_of_length_pos hlen
  refine ⟨⟨e.home_id, e.location, x.1, x.2⟩, ?_, rfl⟩
  unfold counted_events_per_house
  rw [List.mem_flatMap]
  refine ⟨(e.home_id, e.location), hp, ?_⟩
  rw [List.mem_map]
  exact ⟨x, hx, rfl⟩

theorem lookup_of_mem_nodup {β : Type} (l : List (String × β))
    (hnd : (l.map fun hp => hp.1).Nodup) (a : String) (b : β)
    (hab : (a, b) ∈ l) : l.lookup a = some b := by
  induction l with
  | nil => exact absurd hab (List.not_mem_nil _)
  | cons kv t ih =>
    rw [List.map_cons, List.nodup_cons] at hnd
    rcases List.mem_cons.mp hab with rfl | hat
    · simp [List.lookup]
    · have hne : (a == kv.1) = false := by
        rw [beq_eq_false_iff_ne]
        intro heq
        apply hnd.1
        rw [List.mem_map]
        exact ⟨(a, b), hat, heq⟩
      cases kv with
      | mk k v =>
        simp only [List.lookup, hne]
        exact ih hnd.2 hat

theorem find?_binary_none (data : List Event) (h : String)
    (hh : h ∉ flagKeys data) :
    (homes_with_binary_locations data).find? (fun r => r.home_id == h) = none := by
  rw [List.find?_eq_none]
  intro r hr
  obtain ⟨hk, -⟩ := (mem_binary_rows data r).mp hr
  rw [beq_eq_false_iff_ne.mpr ?hne]
  · simp
  case hne =>
    intro heq
    rw [heq] at hk
    exact hh hk

theorem mem_allLocs (res : List (String × ParamsFrame)) (l : String) :
    l ∈ allLocs res ↔ ∃ hp ∈ res, l ∈ hp.2.locs := by
  simp [allLocs, List.mem_dedup, List.mem_flatMap]

theorem mem_allCoeffs (res : List (String × ParamsFrame)) (c : String) :
    c ∈ allCoeffs res ↔ ∃ hp ∈ res, c ∈ hp.2.coeffs := by
  simp [allCoeffs, List.mem_dedup, List.mem_flatMap]

theorem buildTable_cell (data : List Event) (res : List (String × ParamsFrame))
    (h : String) (lc : String × String) :
    (buildTable data res).cell h lc =
      match res.lookup h with
      | some p => if lc.1 ∈ p.locs ∧ lc.2 ∈ p.coeffs then p.val lc.2 lc.1 else 0
      | none => 0 := rfl

theorem buildTable_flags (data : List Event) (res : List (String × ParamsFrame))
    (h : String) :
    ((buildTable data res).has_conservatory h =
      match (homes_with_binary_locations data).find? (fun r => r.home_id == h) with
      | some r => r.has_conservatory
      | none => false) ∧
    ((buildTable data res).has_dining_room h =
      match (homes_with_binary_locations data).find? (fun r => r.home_id == h) with
      | some r => r.has_dining_room
      | none => false) ∧
    ((buildTable data res).has_study h =
      match (homes_with_binary_locations data).find? (fun r => r.home_id == h) with
      | some r => r.has_study
      | none => false) :=
  ⟨rfl, rfl, rfl⟩

/-- C1, counterexample: home B's only event is in the conservatory, a
location outside the selected set `bedroom1|lounge|bathroom1|hallway|kitchen`;
the final `join` of line 150 is a left join on the pivot's home index, so
B gets no row in the returned table although it appears in the input. -/
theorem preprocess_drops_unselected_home :
    tableHomes (preprocess_events_data
        [⟨"A", "kitchen", 1⟩, ⟨"B", "conservatory", 1⟩] 0 4 1 1 "D" fitVarLike) =
      some ["A"] ∧
      "B" ∈ homeIds [⟨"A", "kitchen", 1⟩, ⟨"B", "conservatory", 1⟩] ∧
      "B" ∉ ["A"] := by
  decide

/-- C1 (amended): under a non-degenerate configuration (`start < end`,
positive width no larger than the span) and a fit that succeeds on every
home, the returned table has exactly one row per distinct home id
appearing among the events in the selected locations; homes all of whose
events lie outside that set are dropped. -/
theorem preprocess_one_row_per_filtered_home (data : List Event)
    (start stop w lag : Nat) (freq : String)
    (fitModel : List CountRow → Nat → String → Except String ParamsFrame)
    (hcfg : start < stop) (hw : 0 < w) (hspan : w ≤ stop - start)
    (hfit : ∀ rows, ∃ p, fitModel rows lag freq = .ok p) :
    ∃ t, preprocess_events_data data start stop w lag freq fitModel = .ok t ∧
      t.homes.Nodup ∧
      (∀ h, h ∈ t.homes ↔ h ∈ homeIds (selectedEvents data)) := by
  obtain ⟨res, hres, hfst⟩ :=
    modelled_ok (selectedEvents data) start stop w lag freq fitModel hfit
  refine ⟨buildTable data res, ?_, ?_, ?_⟩
  · unfold preprocess_events_data
    rw [hres]
    rfl
  · show (res.map fun hp => hp.1).Nodup
    rw [hfst]
    exact List.nodup_dedup _
  · intro h
    show h ∈ res.map (fun hp => hp.1) ↔ _
    rw [hfst, mem_modelHomes, mem_homeIds]
    constructor
    · rintro ⟨r, hr, rfl⟩
      exact counted_home_of_mem _ _ _ _ r hr
    · rintro ⟨e, he, rfl⟩
      exact counted_home_exists _ _ _ _ e he ((Nat.one_le_div_iff hw).mpr hspan)

theorem preprocess_one_row_per_filtered_home_witness :
    (0 : Nat) < 4 ∧ (0 : Nat) < 1 ∧ (1 : Nat) ≤ 4 - 0 ∧
      (∃ t, preprocess_events_data [⟨"A", "kitchen", 1⟩] 0 4 1 2 "D" fitVarLike =
          .ok t ∧
        t.homes.Nodup ∧
        (∀ h, h ∈ t.homes ↔ h ∈ homeIds (selectedEvents [⟨"A", "kitchen", 1⟩]))) :=
  ⟨by decide, by decide, by decide,
    preprocess_one_row_per_filtered_home [⟨"A", "kitchen", 1⟩] 0 4 1 2 "D"
      fitVarLike (by decide) (by decide) (by decide) (fun rows => ⟨_, rfl⟩)⟩

/-- C4, counterexample: home A (kitchen) fits fine, home B (bathroom1)
makes the estimator raise; `groupby.apply` propagates the exception, so
the whole call fails and produces no rows at all — A's row is not
produced and no failure report accompanies any output. -/
theorem preprocess_aborts_despite_other_homes_ok :
    errOf (preprocess_events_data
        [⟨"A", "kitchen", 1⟩, ⟨"B", "bathroom1", 1⟩] 0 4 1 1 "D" fitFailBathroom) =
      some "singular fit" ∧
      (fitFailBathroom (homeRows (selectedEvents
          [⟨"A", "kitchen", 1⟩, ⟨"B", "bathroom1", 1⟩]) 0 4 1 "A") 1
          "D").toOption.isSome = true := by
  decide

/-- C4 (amended): when the fit raises for any home appearing in the
counted groups, `preprocess_events_data` fails for the whole batch: the
exception propagates out of `groupby.apply` and no table (hence no row for
any other home) is produced; failures are not collected. -/
theorem fit_failure_aborts_batch (data : List Event) (start stop w lag : Nat)
    (freq : String)
    (fitModel : List CountRow → Nat → String → Except String ParamsFrame)
    (h : String) (msg : String)
    (hh : h ∈ modelHomes (selectedEvents data) start stop w)
    (hf : fitModel (homeRows (selectedEvents data) start stop w h) lag freq =
      .error msg) :
    ∃ m, preprocess_events_data data start stop w lag freq fitModel = .error m := by
  have hfa : (fun h' =>
      (fitModel (homeRows (selectedEvents data) start stop w h') lag freq).map
        fun p => (h', p)) h = Except.error msg := by
    show (fitModel (homeRows (selectedEvents data) start stop w h) lag freq).map
        (fun p => (h, p)) = Except.error msg
    rw [hf]
    rfl
  obtain ⟨m, hm⟩ := mapExcept_error
    (fun h' =>
      (fitModel (homeRows (selectedEvents data) start stop w h') lag freq).map
        fun p => (h', p))
    (modelHomes (selectedEvents data) start stop w) h hh msg hfa
  refine ⟨m, ?_⟩
  unfold preprocess_events_data modelled_event_counts
  rw [hm]
  rfl

theorem fit_failure_aborts_batch_witness :
    "B" ∈ modelHomes (selectedEvents [(⟨"B", "bathroom1", 1⟩ : Event)]) 0 4 1 ∧
      fitFailBathroom (homeRows (selectedEvents [(⟨"B", "bathroom1", 1⟩ : Event)])
          0 4 1 "B") 1 "D" = .error "singular fit" ∧
      (∃ m, preprocess_events_data [(⟨"B", "bathroom1", 1⟩ : Event)] 0 4 1 1 "D"
        fitFailBathroom = .error m) :=
  ⟨by decide, rfl,
    fit_failure_aborts_batch [(⟨"B", "bathroom1", 1⟩ : Event)] 0 4 1 1 "D"
      fitFailBathroom "B" "singular fit" (by decide) rfl⟩

/-- C5, counterexample: with the invalid configuration `lag = 0` (and also
with `start > end`) the function neither detects anything nor fails: with
an estimator that accepts the call, it happily returns a table — there is
no configuration validation before the per-home work. -/
theorem preprocess_accepts_lag_zero :
    tableHomes (preprocess_events_data [⟨"A", "kitchen", 1⟩] 0 4 1 0 "D"
        fitVarLike) = some ["A"] ∧
      errOf (preprocess_events_data [⟨"A", "kitchen", 1⟩] 5 3 1 2 "D" fitVarLike) =
        none := by
  decide

/-- C5 (amended): `preprocess_events_data` performs no configuration
validation whatsoever: for every configuration — including `lag < 1`,
`start >= end` and an interval wider than the span — it succeeds whenever
the external estimator succeeds on every home it is given; invalid
configurations can only surface as failures raised later inside the
external fit, never as an upfront batch-level check. -/
theorem preprocess_never_rejects_configuration (data : List Event)
    (start stop w lag : Nat) (freq : String)
    (fitModel : List CountRow → Nat → String → Except String ParamsFrame)
    (hfit : ∀ rows l f, ∃ p, fitModel rows l f = .ok p) :
    ∃ t, preprocess_events_data data start stop w lag freq fitModel = .ok t := by
  obtain ⟨res, hres, -⟩ := modelled_ok (selectedEvents data) start stop w lag freq
    fitModel (fun rows => hfit rows lag freq)
  refine ⟨buildTable data res, ?_⟩
  unfold preprocess_events_data
  rw [hres]
  rfl

theorem preprocess_never_rejects_configuration_witness :
    ∃ t, preprocess_events_data [⟨"A", "kitchen", 1⟩] 5 3 1 0 "D" fitVarLike =
      .ok t :=
  preprocess_never_rejects_configuration [⟨"A", "kitchen", 1⟩] 5 3 1 0 "D"
    fitVarLike (fun rows l f => ⟨_, rfl⟩)

/-- C7: with no events at all, or with no event in a selected location,
every pipeline stage is empty and the function returns an empty table (no
rows, no coefficient columns) rather than raising. -/
theorem preprocess_empty_filtered_input_ok (data : List Event)
    (start stop w lag : Nat) (freq : String)
    (fitModel : List CountRow → Nat → String → Except String ParamsFrame)
    (hsel : selectedEvents data = []) :
    ∃ t, preprocess_events_data data start stop w lag freq fitModel = .ok t ∧
      t.homes = [] ∧ t.coeffCols = [] := by
  refine ⟨buildTable data [], ?_, rfl, rfl⟩
  unfold preprocess_events_data
  rw [hsel]
  rfl

theorem preprocess_empty_filtered_input_ok_witness :
    selectedEvents [(⟨"B", "conservatory", 1⟩ : Event)] = [] ∧
      (∃ t, preprocess_events_data [(⟨"B", "conservatory", 1⟩ : Event)] 0 4 1 2 "D"
          fitVarLike = .ok t ∧ t.homes = [] ∧ t.coeffCols = []) :=
  ⟨by decide,
    preprocess_empty_filtered_input_ok [(⟨"B", "conservatory", 1⟩ : Event)] 0 4 1 2
      "D" fitVarLike (by decide)⟩

/-- C9, counterexample: home A has locations kitchen and lounge, home B
kitchen and hallway; the pivot of line 143 produces the full product of
all locations with all coefficient names, so the table has the column
`("lounge", "L1.hallway")` — flattened `"lounge L1.hallway"` — although it
belongs to neither home's individual pivoted column set: the column set is
strictly larger than the union the claim states. -/
theorem coeff_columns_not_union :
    ("lounge", "L1.hallway") ∈ (tableCols (preprocess_events_data
        [⟨"A", "kitchen", 1⟩, ⟨"A", "lounge", 1⟩, ⟨"B", "kitchen", 1⟩,
          ⟨"B", "hallway", 1⟩] 0 4 1 1 "D" fitVarLike)).getD [] ∧
      ("lounge", "L1.hallway") ∉
        (fittedCols (fitVarLike (homeRows (selectedEvents
            [⟨"A", "kitchen", 1⟩, ⟨"A", "lounge", 1⟩, ⟨"B", "kitchen", 1⟩,
              ⟨"B", "hallway", 1⟩]) 0 4 1 "A") 1 "D") ++
          fittedCols (fitVarLike (homeRows (selectedEvents
            [⟨"A", "kitchen", 1⟩, ⟨"A", "lounge", 1⟩, ⟨"B", "kitchen", 1⟩,
              ⟨"B", "hallway", 1⟩]) 0 4 1 "B") 1 "D")) := by
  decide

/-- C9 (amended): when every per-home fit succeeds, the coefficient-column
set of the returned table is the full product of the union of all homes'
target locations with the union of all homes' coefficient names (a
superset of the union of the individual pivoted column sets), each
flattened to `"<target_location> <coefficient_name>"` by `colName`; every
home's row is fully populated: its own coefficient value where the home
has the (location, coefficient) pair, 0 elsewhere, and `false` for the
flags of a home absent from the flag mapping. -/
theorem coeff_columns_product_and_zero_fill (data : List Event)
    (start stop w lag : Nat) (freq : String)
    (fitModel : List CountRow → Nat → String → Except String ParamsFrame)
    (hfit : ∀ rows, ∃ p, fitModel rows lag freq = .ok p) :
    ∃ res t,
      modelled_event_counts (selectedEvents data) start stop w lag freq fitModel =
        .ok res ∧
      preprocess_events_data data start stop w lag freq fitModel = .ok t ∧
      (∀ l c, (l, c) ∈ t.coeffCols ↔
        ((∃ hp ∈ res, l ∈ hp.2.locs) ∧ (∃ hp ∈ res, c ∈ hp.2.coeffs))) ∧
      (∀ h p, (h, p) ∈ res → ∀ l c,
        (l ∈ p.locs → c ∈ p.coeffs → t.cell h (l, c) = p.val c l) ∧
        (¬(l ∈ p.locs ∧ c ∈ p.coeffs) → t.cell h (l, c) = 0)) ∧
      (∀ h, h ∉ flagKeys data →
        t.has_conservatory h = false ∧ t.has_dining_room h = false ∧
          t.has_study h = false) := by
  obtain ⟨res, hres, hfst⟩ :=
    modelled_ok (selectedEvents data) start stop w lag freq fitModel hfit
  refine ⟨res, buildTable data res, hres, ?_, ?_, ?_, ?_⟩
  · unfold preprocess_events_data
    rw [hres]
    rfl
  · intro l c
    show (l, c) ∈ (allLocs res).flatMap
        (fun l' => (allCoeffs res).map fun c' => (l', c')) ↔ _
    rw [List.mem_flatMap]
    constructor
    · rintro ⟨l', hl', hmem⟩
      rw [List.mem_map] at hmem
      obtain ⟨c', hc', heq⟩ := hmem
      cases heq
      exact ⟨(mem_allLocs res _).mp hl', (mem_allCoeffs res _).mp hc'⟩
    · rintro ⟨hl, hc⟩
      exact ⟨l, (mem_allLocs res l).mpr hl,
        List.mem_map.mpr ⟨c, (mem_allCoeffs res c).mpr hc, rfl⟩⟩
  · intro h p hmem l c
    have hnd : (res.map fun hp => hp.1).Nodup := by
      rw [hfst]
      exact List.nodup_dedup _
    have hlook : res.lookup h = some p := lookup_of_mem_nodup res hnd h p hmem
    constructor
    · intro hl hc
      rw [buildTable_cell, hlook]
      simp [hl, hc]
    · intro hnot
      rw [buildTable_cell, hlook]
      simp only []
      rw [if_neg hnot]
  · intro h hh
    have hfind := find?_binary_none data h hh
    obtain ⟨h1, h2, h3⟩ := buildTable_flags data res h
    rw [h1, h2, h3, hfind]
    exact ⟨rfl, rfl, rfl⟩

theorem coeff_columns_product_and_zero_fill_witness :
    ∃ res t,
      modelled_event_counts (selectedEvents [(⟨"A", "kitchen", 1⟩ : Event)]) 0 4 1 1
          "D" fitVarLike = .ok res ∧
      preprocess_events_data [(⟨"A", "kitchen", 1⟩ : Event)] 0 4 1 1 "D" fitVarLike =
        .ok t ∧
      (∀ l c, (l, c) ∈ t.coeffCols ↔
        ((∃ hp ∈ res, l ∈ hp.2.locs) ∧ (∃ hp ∈ res, c ∈ hp.2.coeffs))) ∧
      (∀ h p, (h, p) ∈ res → ∀ l c,
        (l ∈ p.locs → c ∈ p.coeffs → t.cell h (l, c) = p.val c l) ∧
        (¬(l ∈ p.locs ∧ c ∈ p.coeffs) → t.cell h (l, c) = 0)) ∧
      (∀ h, h ∉ flagKeys [(⟨"A", "kitchen", 1⟩ : Event)] →
        t.has_conservatory h = false ∧ t.has_dining_room h = false ∧
          t.has_study h = false) :=
  coeff_columns_product_and_zero_fill [(⟨"A", "kitchen", 1⟩ : Event)] 0 4 1 1 "D"
    fitVarLike (fun rows => ⟨_, rfl⟩)

end Minder
